import Mathlib

/-!
# Verification of the zither annotation pipeline (`zither/zither.py`)

A shallow embedding of the zither source in Lean 4.  Python strings are
Lean `String`s (manipulated through their underlying `List Char` so that
every definition is an executable structural recursion), Python ints are
`Nat`/`Int`, Python `float` division `variant_count/total_depth` is the
exact rational `ℚ` (the emitted decimal string is the rendering of that
ratio), fallible Python code (statements that can raise) is modelled in
`Except String`, and an `OrderedDict` is an association list in insertion
order.
-/

namespace Zither

/-! ## Character-list string primitives

Structural-recursion replacements for the position-based `String`
primitives, so that every definition below evaluates by `decide`/`rfl`.
-/

/-- Python `s.startswith(pre)`. -/
def startsWithS (s pre : String) : Bool :=
  pre.data.isPrefixOf s.data

/-- Python `s.endswith(suf)`. -/
def endsWithS (s suf : String) : Bool :=
  suf.data.isSuffixOf s.data

/-- Split a character list on a single separator character; mirrors
Python `str.split(c)` for a one-character separator. -/
def splitOnCharL (c : Char) : List Char → List (List Char)
  | [] => [[]]
  | x :: xs =>
    if x = c then
      [] :: splitOnCharL c xs
    else
      match splitOnCharL c xs with
      | [] => [[x]]
      | g :: gs => (x :: g) :: gs

/-- Python `s.split(c)` for a one-character separator. -/
def splitS (c : Char) (s : String) : List String :=
  (splitOnCharL c s.data).map String.mk

/-- Python `'sep'.join(parts)`. -/
def joinWithS (sep : String) : List String → String
  | [] => ""
  | [x] => x
  | x :: xs => x ++ sep ++ joinWithS sep xs

/-- Python `s.upper()` (ASCII case mapping, as used on allele strings). -/
def upperS (s : String) : String :=
  String.mk (s.data.map Char.toUpper)

/-- Python `line.rstrip()`: drop trailing whitespace. -/
def rstrip (s : String) : String :=
  String.mk ((s.data.reverse.dropWhile Char.isWhitespace).reverse)

/-- Python `int(s)` restricted to an optional sign and decimal digits
(the zither claims never depend on the exact `int()` grammar). -/
def digitsToNat : List Char → Option Nat
  | [] => none
  | cs =>
    if cs.all Char.isDigit then
      some (cs.foldl (fun n c => 10 * n + c.toNat - 48) 0)
    else
      none

/-- Python `int(s)` on the strings zither feeds it (the POS column). -/
def parseIntS (s : String) : Option Int :=
  match s.data with
  | '-' :: cs => (digitsToNat cs).map (fun n => -(n : Int))
  | cs => (digitsToNat cs).map (fun n => (n : Int))

/-! ## POSIX path model (`os.path` as used by zither)

Faithful translations of `posixpath.join`, `dirname`, `basename`,
`splitext`, `normpath` and `abspath` (the last parameterized by the
process working directory `cwd`). -/

/-- `posixpath.join` restricted to two arguments, as called by zither. -/
def posixJoin (a b : String) : String :=
  if startsWithS b "/" then b
  else if a = "" || endsWithS a "/" then a ++ b
  else a ++ "/" ++ b

/-- `posixpath.dirname`. -/
def dirname (p : String) : String :=
  let cs := p.data
  let tailLen := (cs.reverse.takeWhile (fun c => c ≠ '/')).length
  let head := cs.take (cs.length - tailLen)
  if head.isEmpty || head.all (fun c => c = '/') then String.mk head
  else String.mk ((head.reverse.dropWhile (fun c => c = '/')).reverse)

/-- `posixpath.basename`. -/
def basename (p : String) : String :=
  String.mk ((p.data.reverse.takeWhile (fun c => c ≠ '/')).reverse)

/-- Index of the last occurrence of `c` in `cs` (Python `str.rfind`,
with `none` for "not found"). -/
def rlastIdx (c : Char) (cs : List Char) : Option Nat :=
  if cs.contains c then
    some (cs.length - 1 - (cs.reverse.takeWhile (fun x => x ≠ c)).length)
  else
    none

/-- `posixpath.splitext`: split off the final extension; leading dots of
the base name never start an extension. -/
def splitext (p : String) : String × String :=
  let cs := p.data
  let sepIndex : Int := match rlastIdx '/' cs with | some i => (i : Int) | none => -1
  let dotIndex : Int := match rlastIdx '.' cs with | some i => (i : Int) | none => -1
  if sepIndex < dotIndex then
    let start := (sepIndex + 1).toNat
    let dn := dotIndex.toNat
    if ((cs.drop start).take (dn - start)).any (fun c => c ≠ '.') then
      (String.mk (cs.take dn), String.mk (cs.drop dn))
    else (p, "")
  else (p, "")

/-- The component loop of `posixpath.normpath`: `acc` is `new_comps`. -/
def normComps (rooted : Bool) : List String → List String → List String
  | acc, [] => acc
  | acc, c :: cs =>
    if c = "" || c = "." then
      normComps rooted acc cs
    else if c ≠ ".." || (!rooted && acc.isEmpty) || acc.getLast? = some ".." then
      normComps rooted (acc ++ [c]) cs
    else if !acc.isEmpty then
      normComps rooted acc.dropLast cs
    else
      normComps rooted acc cs

/-- `posixpath.normpath`. -/
def normpath (p : String) : String :=
  if p = "" then "." else
  let slashes : Nat :=
    if startsWithS p "//" && !startsWithS p "///" then 2
    else if startsWithS p "/" then 1
    else 0
  let comps := normComps (slashes ≠ 0) [] (splitS '/' p)
  let res := String.mk (List.replicate slashes '/') ++ joinWithS "/" comps
  if res = "" then "." else res

/-- `posixpath.abspath`, with the process working directory explicit. -/
def abspath (cwd p : String) : String :=
  if startsWithS p "/" then normpath p else normpath (posixJoin cwd p)

/-! ## Pileup statistics (`_PileupStats`) -/

/-- The VCF null sentinel `_NULL = "."`. -/
def _NULL : String := "."

/-- A pysam `count_coverage` result: one count per base channel, the
four channels in order A, C, G, T (each Python channel is a one-element
array; we keep the single count). -/
structure Coverage where
  a : Nat
  c : Nat
  g : Nat
  t : Nat
  deriving DecidableEq, Repr

/-- Channel accessor: `coverage[i][0]`. -/
def Coverage.chan (cov : Coverage) : Fin 4 → Nat
  | 0 => cov.a
  | 1 => cov.c
  | 2 => cov.g
  | 3 => cov.t

/-- The all-zero coverage `[[0], [0], [0], [0]]`. -/
def zeroCoverage : Coverage := ⟨0, 0, 0, 0⟩

/-- `_PileupStats._PYSAM_BASE_INDEX`: dict lookup, `none` is `KeyError`. -/
def PYSAM_BASE_INDEX (b : String) : Option (Fin 4) :=
  if b = "A" then some 0
  else if b = "C" then some 1
  else if b = "G" then some 2
  else if b = "T" then some 3
  else none

/-- `_PileupStats._init_depth_freq`.  The frequency is the exact value of
the Python float `variant_count/total_depth` (whose decimal string is
emitted); `none` stands for the null string `"."`.  The Python
`try/except KeyError` around the dict lookup is the `match` on
`PYSAM_BASE_INDEX`; the function is total, so no exception escapes. -/
def initDepthFreq (ref alt : String) (coverage : Coverage) : Nat × Option ℚ :=
  let altU := upperS alt
  let total_depth := coverage.a + coverage.c + coverage.g + coverage.t
  match PYSAM_BASE_INDEX altU with
  | none => (total_depth, none)
  | some ch =>
    if total_depth ≠ 0 ∧ ref.length = 1 then
      (total_depth, some ((coverage.chan ch : ℚ) / (total_depth : ℚ)))
    else
      (total_depth, none)

/-- `_PileupStats`: the six attributes set by `__init__`. -/
structure PileupStats where
  total_depth : Nat
  total_af : Option ℚ
  zither_total_depth : Nat
  zither_total_af : Option ℚ
  filtered_depth : Nat
  filtered_af : Option ℚ
  deriving DecidableEq, Repr

/-- `_PileupStats.__init__(ref, alt, unfiltered_coverage, filtered_coverage)`. -/
def mkPileupStats (ref alt : String)
    (unfiltered_coverage filtered_coverage : Coverage) : PileupStats :=
  let p1 := initDepthFreq ref alt unfiltered_coverage
  let p2 := initDepthFreq ref alt unfiltered_coverage
  let p3 := initDepthFreq ref alt filtered_coverage
  { total_depth := p1.1, total_af := p1.2,
    zither_total_depth := p2.1, zither_total_af := p2.2,
    filtered_depth := p3.1, filtered_af := p3.2 }

/-! ## `_BamReader.get_pileup_stats`

`count_coverage` is the external pysam call: a function from the
chromosome and the zero-based start position to either a coverage vector
or a raised `ValueError` carrying its message string. -/

/-- `_BamReader.get_pileup_stats`: a `ValueError` whose message starts
with `"invalid reference"` (unknown contig) is caught and replaced by
zero coverage; any other error is re-raised.  Both coverage arguments of
`_PileupStats` receive the same single query result. -/
def getPileupStats (count_coverage : String → Int → Except String Coverage)
    (chrom : String) (pos_one_based : Int) (ref alt : String) :
    Except String PileupStats :=
  match count_coverage chrom (pos_one_based - 1) with
  | Except.ok coverage => Except.ok (mkPileupStats ref alt coverage coverage)
  | Except.error e =>
    if startsWithS e "invalid reference" then
      Except.ok (mkPileupStats ref alt zeroCoverage zeroCoverage)
    else
      Except.error e

/-! ## Sample/source resolution strategies -/

/-- `_ExplicitBamFileStrategy.build_sample_bam_mapping`: one sample whose
name is the base name of the BAM path with its final extension stripped. -/
def explicitBuildSampleBamMapping (bam_file_path : String) : List (String × String) :=
  let sample_file := basename bam_file_path
  let sample_name := (splitext sample_file).1
  [(sample_name, bam_file_path)]

/-- `OrderedDict` assignment `d[k] = v`: replace the value in place when
the key exists, otherwise append the new pair. -/
def odInsert (d : List (String × String)) (k v : String) : List (String × String) :=
  if d.any (fun p => p.1 = k) then
    d.map (fun p => if p.1 = k then (k, v) else p)
  else
    d ++ [(k, v)]

/-- `_MappingFileStrategy._abs_path`, with the process working directory
explicit: a path that is not already its own absolute form is joined to
the mapping file's directory and made absolute. -/
def abs_path (cwd mapping_file path : String) : String :=
  let mapping_dir_path := dirname mapping_file
  if path ≠ abspath cwd path then abspath cwd (posixJoin mapping_dir_path path)
  else path

/-- `_MappingFileStrategy.build_sample_bam_mapping`, over the parsed
two-column rows of the mapping file. -/
def mappingFileBuildSampleBamMapping (cwd mapping_file : String)
    (rows : List (String × String)) : List (String × String) :=
  rows.foldl (fun d r => odInsert d r.1 (abs_path cwd mapping_file r.2)) []

/-- `_MatchingNameStrategy.build_sample_bam_mapping`.  The body can raise
no exception, hence the result is always `Except.ok`. -/
def matchingNameBuildSampleBamMapping (sample_names : List String)
    (input_vcf_path : String) : Except String (List (String × String)) :=
  let bam_dir := dirname input_vcf_path
  Except.ok (sample_names.foldl
    (fun d sample_name => odInsert d sample_name (posixJoin bam_dir (sample_name ++ ".bam")))
    [])

/-! ## `_get_sample_names` -/

/-- The loop test in `_get_sample_names`: not `##`-prefixed but
`#`-prefixed, i.e. a column-header line. -/
def isColumnHeader (line : String) : Bool :=
  !startsWithS line "##" && startsWithS line "#"

/-- One iteration of the `_get_sample_names` loop over input lines. -/
def sampleNamesStep (sample_names : List String) (line : String) : List String :=
  if !startsWithS line "##" && startsWithS line "#" then
    (splitS '\t' (rstrip line)).drop 9
  else
    sample_names

/-- `_get_sample_names`, over the input file's lines: every column-header
line overwrites `sample_names`, so the last one wins. -/
def getSampleNames (lines : List String) : List String :=
  lines.foldl sampleNamesStep []

/-! ## Tags (`_Tag`, `DEFAULT_TAGS`) -/

/-- Rendering of a frequency slot: the null sentinel or the decimal
string of the ratio (Python `str` of the stored value). -/
def renderFreq : Option ℚ → String
  | none => _NULL
  | some q => toString q

/-- `_Tag`: identifier, metadata and the per-stats value extractor
(`get_value` already returns the final string). -/
structure Tag where
  id : String
  number : String
  type : String
  description : String
  getValue : PileupStats → String

/-- `_Tag.metaheader`. -/
def Tag.metaheader (t : Tag) : String :=
  "##FORMAT=<ID=" ++ t.id ++ ",Number=" ++ t.number ++ ",Type=" ++ t.type
    ++ ",Description=\"" ++ t.description ++ "\">"

/-- Module-level tag `zither_total_depth` (`ZTDP`). -/
def zither_total_depth : Tag :=
  ⟨"ZTDP", "1", "Integer", "Zither total (unfiltered) BAM depth",
    fun pileup_stats => toString pileup_stats.zither_total_depth⟩

/-- Module-level tag `zither_total_af` (`ZTAF`). -/
def zither_total_af : Tag :=
  ⟨"ZTAF", "1", "Float", "Zither total (unfiltered) BAM alt frequency",
    fun pileup_stats => renderFreq pileup_stats.zither_total_af⟩

/-- Module-level tag `filtered_depth` (`ZFDP`). -/
def filtered_depth : Tag :=
  ⟨"ZFDP", "1", "Integer", "Zither filtered BAM depth",
    fun pileup_stats => toString pileup_stats.filtered_depth⟩

/-- Module-level tag `filtered_af` (`ZFAF`). -/
def filtered_af : Tag :=
  ⟨"ZFAF", "1", "Float", "Zither filtered BAM alt frequency",
    fun pileup_stats => renderFreq pileup_stats.filtered_af⟩

/-- `DEFAULT_TAGS`. -/
def DEFAULT_TAGS : List Tag :=
  [zither_total_depth, zither_total_af, filtered_depth, filtered_af]

/-! ## Output assembly (`_build_column_header_line`, `_create_vcf`) -/

/-- `_VCF_FIXED_HEADERS`. -/
def VCF_FIXED_HEADERS : List String :=
  ["#CHROM", "POS", "ID", "REF", "ALT", "QUAL", "FILTER", "INFO", "FORMAT"]

/-- The field list of the output column-header line: the nine fixed
headers followed by the sample names in mapping order. -/
def columnHeaderFields (sample_names : List String) : List String :=
  VCF_FIXED_HEADERS ++ sample_names

/-- `_build_column_header_line`. -/
def buildColumnHeaderLine (sample_names : List String) : String :=
  joinWithS "\t" (columnHeaderFields sample_names)

/-- A sample's opened reader, as used per record: chromosome, 1-based
position, ref, alt to pileup statistics (or a raised error). -/
def SampleReader : Type :=
  String → Int → String → String → Except String PileupStats

/-- The colon-joined FORMAT value `":".join([tag.id for tag in tags])`. -/
def formatField (tags : List Tag) : String :=
  joinWithS ":" (tags.map Tag.id)

/-- Error-propagating map over a list, in order: the per-sample loop body
of `_create_vcf` stops at the first raised error. -/
def mapME {α β : Type} (f : α → Except String β) : List α → Except String (List β)
  | [] => Except.ok []
  | a :: as =>
    match f a with
    | Except.error e => Except.error e
    | Except.ok b =>
      match mapME f as with
      | Except.error e => Except.error e
      | Except.ok bs => Except.ok (b :: bs)

/-- The per-sample fields of one record, in reader-mapping order: each is
the colon-joined tag values for that sample's pileup statistics. -/
def sampleFields (tags : List Tag) (readers : List (String × SampleReader))
    (chrom : String) (pos : Int) (ref alt : String) : Except String (List String) :=
  mapME (fun r => (r.2 chrom pos ref alt).map
    (fun pileup_stats => joinWithS ":" (tags.map (fun t => t.getValue pileup_stats))))
    readers

/-- The data-line body of `_create_vcf`: parse the five leading fields,
append three null columns, the FORMAT field and one field per sample.
A line with fewer than five fields or a non-integer POS raises. -/
def processDataLine (tags : List Tag) (readers : List (String × SampleReader))
    (line : String) : Except String (List String) :=
  match (splitS '\t' line).take 5 with
  | [chrom, pos, idcol, ref, alt] =>
    match parseIntS pos with
    | some posInt =>
      (sampleFields tags readers chrom posInt ref alt).map
        (fun sf => [chrom, pos, idcol, ref, alt] ++ [_NULL, _NULL, _NULL, formatField tags] ++ sf)
    | none => Except.error "invalid literal for int() with base 10"
  | _ => Except.error "need more than values to unpack"

/-- The data-record loop of `_create_vcf`: every input line not starting
with `#` produces exactly one output record (as its field list). -/
def createVcfDataLines (tags : List Tag) (readers : List (String × SampleReader))
    (lines : List String) : Except String (List (List String)) :=
  mapME (processDataLine tags readers) (lines.filter (fun l => !startsWithS l "#"))

/-! ## Helper lemmas -/

theorem pysam_index_none_iff (b : String) :
    PYSAM_BASE_INDEX b = none ↔ b ∉ (["A", "C", "G", "T"] : List String) := by
  unfold PYSAM_BASE_INDEX
  split_ifs with h1 h2 h3 h4 <;> simp_all

theorem initDepthFreq_zeroCoverage (ref alt : String) :
    initDepthFreq ref alt zeroCoverage = (0, none) := by
  unfold initDepthFreq zeroCoverage
  cases h : PYSAM_BASE_INDEX (upperS alt) <;> simp [h]

theorem mapME_length {α β : Type} (f : α → Except String β) (l : List α) :
    ∀ res : List β, mapME f l = Except.ok res → res.length = l.length := by
  induction l with
  | nil =>
    intro res h
    simp only [mapME] at h
    cases h
    rfl
  | cons a as ih =>
    intro res h
    simp only [mapME] at h
    cases hf : f a with
    | error e => rw [hf] at h; exact Except.noConfusion h
    | ok b =>
      rw [hf] at h
      cases hr : mapME f as with
      | error e => rw [hr] at h; exact Except.noConfusion h
      | ok bs =>
        rw [hr] at h
        cases h
        simp [ih bs hr]

/-! ## Claim theorems -/

/-- C1: `_init_depth_freq` returns total depth equal to the sum of the
four channel counts, returns the null frequency exactly when the
upper-cased alternate allele is not one of A, C, G, T, or the reference
allele length is not 1, or the total depth is 0, and otherwise returns
the exact ratio channel-count(alt) / total depth (whose decimal string
is emitted); the function is total, so no exception escapes. -/
theorem pileup_depth_and_freq_rule (ref alt : String) (cov : Coverage) :
    (initDepthFreq ref alt cov).1 = cov.a + cov.c + cov.g + cov.t ∧
    ((initDepthFreq ref alt cov).2 = none ↔
      upperS alt ∉ (["A", "C", "G", "T"] : List String) ∨ ref.length ≠ 1 ∨
        cov.a + cov.c + cov.g + cov.t = 0) ∧
    (∀ ch : Fin 4, PYSAM_BASE_INDEX (upperS alt) = some ch → ref.length = 1 →
      cov.a + cov.c + cov.g + cov.t ≠ 0 →
      (initDepthFreq ref alt cov).2
        = some ((cov.chan ch : ℚ) / ((cov.a + cov.c + cov.g + cov.t : Nat) : ℚ))) := by
  refine ⟨?_, ?_, ?_⟩
  · rcases h : PYSAM_BASE_INDEX (upperS alt) with _ | ch
    · simp [initDepthFreq, h]
    · simp only [initDepthFreq, h]
      split_ifs <;> rfl
  · rcases h : PYSAM_BASE_INDEX (upperS alt) with _ | ch
    · have hmem := (pysam_index_none_iff _).mp h
      simp [initDepthFreq, h, hmem]
    · have hmem : upperS alt ∈ (["A", "C", "G", "T"] : List String) := by
        by_contra hm
        rw [(pysam_index_none_iff _).mpr hm] at h
        cases h
      by_cases hc : cov.a + cov.c + cov.g + cov.t ≠ 0 ∧ ref.length = 1
      · simp only [initDepthFreq, h, if_pos hc]
        simp [hmem, hc.1, hc.2]
      · simp only [initDepthFreq, h, if_neg hc]
        push_neg at hc
        constructor
        · intro _
          by_cases h0 : cov.a + cov.c + cov.g + cov.t = 0
          · exact Or.inr (Or.inr h0)
          · exact Or.inr (Or.inl (hc h0))
        · intro _; trivial
  · intro ch hch hlen htot
    simp only [initDepthFreq, hch]
    rw [if_pos ⟨htot, hlen⟩]

/-- Witness for C1 at ref `"A"`, alt `"c"`, coverage `(10, 2, 0, 0)`. -/
theorem pileup_depth_and_freq_rule_apply :
    (initDepthFreq "A" "c" ⟨10, 2, 0, 0⟩).2
      = some ((Coverage.chan ⟨10, 2, 0, 0⟩ 1 : ℚ) / ((10 + 2 + 0 + 0 : Nat) : ℚ)) :=
  (pileup_depth_and_freq_rule "A" "c" ⟨10, 2, 0, 0⟩).2.2 1 (by decide) (by decide) (by decide)

/-- C3: every pileup-stats object produced by `get_pileup_stats` carries
identical filtered (`ZFDP`/`ZFAF`) and unfiltered (`ZTDP`/`ZTAF`)
values, both as emitted tag strings and as raw fields, because both are
computed from the same single coverage query. -/
theorem filtered_tags_equal_unfiltered_tags
    (count_coverage : String → Int → Except String Coverage)
    (chrom : String) (pos : Int) (ref alt : String) (st : PileupStats)
    (h : getPileupStats count_coverage chrom pos ref alt = Except.ok st) :
    filtered_depth.getValue st = zither_total_depth.getValue st ∧
    filtered_af.getValue st = zither_total_af.getValue st ∧
    st.filtered_depth = st.zither_total_depth ∧
    st.filtered_af = st.zither_total_af := by
  obtain ⟨cov, rfl⟩ : ∃ cov : Coverage, st = mkPileupStats ref alt cov cov := by
    unfold getPileupStats at h
    split at h
    · exact ⟨_, (Except.ok.inj h).symm⟩
    · split at h
      · exact ⟨zeroCoverage, (Except.ok.inj h).symm⟩
      · exact Except.noConfusion h
  exact ⟨rfl, rfl, rfl, rfl⟩

/-- Witness for C3 on a concrete coverage query. -/
theorem filtered_tags_equal_unfiltered_tags_apply :
    filtered_depth.getValue (mkPileupStats "A" "C" ⟨3, 1, 0, 0⟩ ⟨3, 1, 0, 0⟩)
      = zither_total_depth.getValue (mkPileupStats "A" "C" ⟨3, 1, 0, 0⟩ ⟨3, 1, 0, 0⟩) ∧
    filtered_af.getValue (mkPileupStats "A" "C" ⟨3, 1, 0, 0⟩ ⟨3, 1, 0, 0⟩)
      = zither_total_af.getValue (mkPileupStats "A" "C" ⟨3, 1, 0, 0⟩ ⟨3, 1, 0, 0⟩) ∧
    (mkPileupStats "A" "C" ⟨3, 1, 0, 0⟩ ⟨3, 1, 0, 0⟩).filtered_depth
      = (mkPileupStats "A" "C" ⟨3, 1, 0, 0⟩ ⟨3, 1, 0, 0⟩).zither_total_depth ∧
    (mkPileupStats "A" "C" ⟨3, 1, 0, 0⟩ ⟨3, 1, 0, 0⟩).filtered_af
      = (mkPileupStats "A" "C" ⟨3, 1, 0, 0⟩ ⟨3, 1, 0, 0⟩).zither_total_af :=
  filtered_tags_equal_unfiltered_tags (fun _ _ => Except.ok ⟨3, 1, 0, 0⟩)
    "1" 42 "A" "C" (mkPileupStats "A" "C" ⟨3, 1, 0, 0⟩ ⟨3, 1, 0, 0⟩) rfl

/-- C6: a coverage query failing with a message starting
`"invalid reference"` (unrecognized contig) yields an all-zero coverage
vector — total depth 0 and null frequency — and the computation
returns normally; any other failure message propagates as an error. -/
theorem unrecognized_contig_recovery
    (count_coverage : String → Int → Except String Coverage)
    (chrom : String) (pos : Int) (ref alt : String) (msg : String)
    (h : count_coverage chrom (pos - 1) = Except.error msg) :
    (startsWithS msg "invalid reference" = true →
      getPileupStats count_coverage chrom pos ref alt
        = Except.ok (mkPileupStats ref alt zeroCoverage zeroCoverage) ∧
      (mkPileupStats ref alt zeroCoverage zeroCoverage).zither_total_depth = 0 ∧
      (mkPileupStats ref alt zeroCoverage zeroCoverage).zither_total_af = none ∧
      (mkPileupStats ref alt zeroCoverage zeroCoverage).filtered_depth = 0 ∧
      (mkPileupStats ref alt zeroCoverage zeroCoverage).filtered_af = none) ∧
    (startsWithS msg "invalid reference" = false →
      getPileupStats count_coverage chrom pos ref alt = Except.error msg) := by
  constructor
  · intro hs
    refine ⟨?_, ?_, ?_, ?_, ?_⟩
    · unfold getPileupStats
      rw [h]
      simp [hs]
    all_goals simp [mkPileupStats, initDepthFreq_zeroCoverage]
  · intro hs
    unfold getPileupStats
    rw [h]
    simp [hs]

/-- Witness for C6 on a concrete failing query. -/
theorem unrecognized_contig_recovery_apply :
    getPileupStats (fun _ _ => Except.error "invalid reference chr99") "chr99" 5 "A" "C"
      = Except.ok (mkPileupStats "A" "C" zeroCoverage zeroCoverage) ∧
    (mkPileupStats "A" "C" zeroCoverage zeroCoverage).zither_total_depth = 0 ∧
    (mkPileupStats "A" "C" zeroCoverage zeroCoverage).zither_total_af = none ∧
    (mkPileupStats "A" "C" zeroCoverage zeroCoverage).filtered_depth = 0 ∧
    (mkPileupStats "A" "C" zeroCoverage zeroCoverage).filtered_af = none :=
  (unrecognized_contig_recovery (fun _ _ => Except.error "invalid reference chr99")
    "chr99" 5 "A" "C" "invalid reference chr99" rfl).1 (by decide)

/-- C7: the explicit-source strategy maps the single sample whose name
is the source file's base name with only its final extension stripped:
`/x/y/NA12878.sorted.bam` yields sample `NA12878.sorted` (`.bam`
removed, `.sorted` retained). -/
theorem explicit_source_sample_name :
    explicitBuildSampleBamMapping "/x/y/NA12878.sorted.bam"
      = [("NA12878.sorted", "/x/y/NA12878.sorted.bam")] ∧
    ∀ bam_file_path : String,
      explicitBuildSampleBamMapping bam_file_path
        = [((splitext (basename bam_file_path)).1, bam_file_path)] :=
  ⟨by decide, fun _ => rfl⟩

/-- C2: every successfully emitted data line has exactly
`9 + sampleCount` fields, its FORMAT field (index 8) is the colon-joined
tag identifiers in tag-set order, the column-header line carries the
sample names after the nine fixed columns in mapping order, and the
per-record sample fields are the per-reader results in the same mapping
order. -/
theorem data_line_structure (tags : List Tag) (readers : List (String × SampleReader))
    (line : String) (fields : List String)
    (h : processDataLine tags readers line = Except.ok fields) :
    fields.length = 9 + readers.length ∧
    fields.get? 8 = some (formatField tags) ∧
    (columnHeaderFields (readers.map Prod.fst)).drop 9 = readers.map Prod.fst ∧
    ∃ (chrom : String) (pos : Int) (ref alt : String) (sf : List String),
      sampleFields tags readers chrom pos ref alt = Except.ok sf ∧
      fields.drop 9 = sf ∧ sf.length = readers.length := by
  unfold processDataLine at h
  split at h
  case h_2 => exact Except.noConfusion h
  case h_1 chrom pos idcol ref alt heq =>
    split at h
    case h_2 => exact Except.noConfusion h
    case h_1 posInt hpos =>
      cases hsf : sampleFields tags readers chrom posInt ref alt with
      | error e =>
        rw [hsf] at h
        exact Except.noConfusion h
      | ok sf =>
        rw [hsf] at h
        have hlen : sf.length = readers.length := mapME_length _ readers sf hsf
        have hf : fields
            = [chrom, pos, idcol, ref, alt]
              ++ [_NULL, _NULL, _NULL, formatField tags] ++ sf := by
          simp only [Except.map] at h
          exact (Except.ok.inj h).symm
        subst hf
        refine ⟨?_, ?_, ?_, chrom, posInt, ref, alt, sf, hsf, ?_, hlen⟩
        · simp [hlen]
          omega
        · rfl
        · rfl
        · rfl

/-- Witness for C2 on a concrete record with one sample reader. -/
theorem data_line_structure_apply :
    (["1", "42", "rs5", "A", "C", ".", ".", ".", "ZTDP:ZFDP", "4:4"] : List String).length
      = 9 + ([("s1", (fun _ _ _ _ =>
          Except.ok (mkPileupStats "A" "C" ⟨3, 1, 0, 0⟩ ⟨3, 1, 0, 0⟩) : SampleReader))]
        : List (String × SampleReader)).length ∧
    (["1", "42", "rs5", "A", "C", ".", ".", ".", "ZTDP:ZFDP", "4:4"] : List String).get? 8
      = some (formatField [zither_total_depth, filtered_depth]) ∧
    (columnHeaderFields (([("s1", (fun _ _ _ _ =>
          Except.ok (mkPileupStats "A" "C" ⟨3, 1, 0, 0⟩ ⟨3, 1, 0, 0⟩) : SampleReader))]
        : List (String × SampleReader)).map Prod.fst)).drop 9
      = ([("s1", (fun _ _ _ _ =>
          Except.ok (mkPileupStats "A" "C" ⟨3, 1, 0, 0⟩ ⟨3, 1, 0, 0⟩) : SampleReader))]
        : List (String × SampleReader)).map Prod.fst ∧
    ∃ (chrom : String) (pos : Int) (ref alt : String) (sf : List String),
      sampleFields [zither_total_depth, filtered_depth]
          ([("s1", (fun _ _ _ _ =>
            Except.ok (mkPileupStats "A" "C" ⟨3, 1, 0, 0⟩ ⟨3, 1, 0, 0⟩) : SampleReader))]
          : List (String × SampleReader)) chrom pos ref alt
        = Except.ok sf ∧
      (["1", "42", "rs5", "A", "C", ".", ".", ".", "ZTDP:ZFDP", "4:4"] : List String).drop 9
        = sf ∧
      sf.length = ([("s1", (fun _ _ _ _ =>
          Except.ok (mkPileupStats "A" "C" ⟨3, 1, 0, 0⟩ ⟨3, 1, 0, 0⟩) : SampleReader))]
        : List (String × SampleReader)).length :=
  data_line_structure [zither_total_depth, filtered_depth]
    [("s1", (fun _ _ _ _ =>
      Except.ok (mkPileupStats "A" "C" ⟨3, 1, 0, 0⟩ ⟨3, 1, 0, 0⟩) : SampleReader))]
    "1\t42\trs5\tA\tC"
    ["1", "42", "rs5", "A", "C", ".", ".", ".", "ZTDP:ZFDP", "4:4"]
    rfl

/-- C8: a successful run emits exactly one output record per input line
not starting with `#`. -/
theorem one_record_per_data_line (tags : List Tag) (readers : List (String × SampleReader))
    (lines : List String) (out : List (List String))
    (h : createVcfDataLines tags readers lines = Except.ok out) :
    out.length = (lines.filter (fun l => !startsWithS l "#")).length :=
  mapME_length _ _ out h

/-- Witness for C8 on a four-line input with two data lines. -/
theorem one_record_per_data_line_apply :
    ([["1", "2", ".", "A", "C", ".", ".", ".", ""],
      ["3", "4", ".", "G", "T", ".", ".", ".", ""]] : List (List String)).length
      = ((["##a", "#b", "1\t2\t.\tA\tC", "3\t4\t.\tG\tT"] : List String).filter
          (fun l => !startsWithS l "#")).length :=
  one_record_per_data_line [] [] ["##a", "#b", "1\t2\t.\tA\tC", "3\t4\t.\tG\tT"]
    [["1", "2", ".", "A", "C", ".", ".", ".", ""],
     ["3", "4", ".", "G", "T", ".", ".", ".", ""]]
    rfl

theorem foldl_sampleNamesStep (lines : List String) :
    ∀ acc : List String,
      lines.foldl sampleNamesStep acc
        = match lines.reverse.find? isColumnHeader with
          | some l => (splitS '\t' (rstrip l)).drop 9
          | none => acc := by
  induction lines with
  | nil => intro acc; rfl
  | cons l ls ih =>
    intro acc
    show ls.foldl sampleNamesStep (sampleNamesStep acc l) = _
    rw [ih]
    rw [show (l :: ls).reverse = ls.reverse ++ [l] by simp, List.find?_append]
    cases hf : ls.reverse.find? isColumnHeader with
    | some x => simp
    | none =>
      simp only [Option.none_or]
      cases hp : isColumnHeader l with
      | true =>
        rw [List.find?_cons_of_pos _ hp]
        show (if isColumnHeader l = true then (splitS '\t' (rstrip l)).drop 9 else acc) = _
        rw [if_pos hp]
      | false =>
        rw [List.find?_cons_of_neg _ (by simp [hp]), List.find?_nil]
        show (if isColumnHeader l = true then (splitS '\t' (rstrip l)).drop 9 else acc) = acc
        rw [if_neg (by simp [hp])]

/-- C9: `_get_sample_names` returns the whitespace-stripped tab fields
from index 9 onward of the last column-header line (a line starting with
`#` but not `##`), and the empty list when no such line exists. -/
theorem sample_names_from_last_column_header (lines : List String) :
    getSampleNames lines
      = match lines.reverse.find? isColumnHeader with
        | some l => (splitS '\t' (rstrip l)).drop 9
        | none => [] :=
  foldl_sampleNamesStep lines []

/-! ## Ordered-dict lemmas for the mapping-file strategy -/

/-- First-occurrence key order: the keys of `ks` not in `seen`, each kept
at its first occurrence. -/
def freshKeys (seen : List String) : List String → List String
  | [] => []
  | k :: ks => if k ∈ seen then freshKeys seen ks else k :: freshKeys (seen ++ [k]) ks

theorem lookup_map_replace_self (k v : String) :
    ∀ d : List (String × String), k ∈ d.map Prod.fst →
      (d.map (fun p => if p.1 = k then (k, v) else p)).lookup k = some v := by
  intro d
  induction d with
  | nil => intro h; simp at h
  | cons p ps ih =>
    obtain ⟨pk, pv⟩ := p
    intro h
    by_cases hp : pk = k
    · simp [List.lookup_cons, hp]
    · have h' : k ∈ ps.map Prod.fst := by
        simp only [List.map_cons, List.mem_cons] at h
        rcases h with h | h
        · exact absurd h.symm hp
        · exact h
      simp only [List.map_cons, if_neg hp, List.lookup_cons]
      rw [show (k == pk) = false by simp [Ne.symm hp]]
      exact ih h'

theorem lookup_map_replace_other (k v k' : String) (hk : k' ≠ k) :
    ∀ d : List (String × String),
      (d.map (fun p => if p.1 = k then (k, v) else p)).lookup k' = d.lookup k' := by
  intro d
  induction d with
  | nil => rfl
  | cons p ps ih =>
    obtain ⟨pk, pv⟩ := p
    by_cases hp : pk = k
    · simp only [List.map_cons, if_pos hp, List.lookup_cons]
      rw [show (k' == k) = false by simp [hk]]
      rw [show (k' == pk) = false by simp [hp ▸ hk]]
      exact ih
    · simp only [List.map_cons, if_neg hp, List.lookup_cons]
      cases hb : k' == pk
      · exact ih
      · rfl

theorem lookup_append_new (k v k' : String) :
    ∀ d : List (String × String), k ∉ d.map Prod.fst →
      (d ++ [(k, v)]).lookup k' = if k' = k then some v else d.lookup k' := by
  intro d
  induction d with
  | nil =>
    intro _
    by_cases hk : k' = k
    · simp [hk, List.lookup_cons]
    · simp only [List.nil_append, List.lookup_cons]
      rw [show (k' == k) = false by simp [hk]]
      simp [hk]
  | cons p ps ih =>
    obtain ⟨pk, pv⟩ := p
    intro h
    have hpk : pk ≠ k := by
      intro he
      exact h (by simp [← he])
    have h' : k ∉ ps.map Prod.fst := fun hc => h (by simp [hc])
    simp only [List.cons_append, List.lookup_cons]
    cases hb : k' == pk
    · rw [ih h']
    · have hk : k' ≠ k := by
        have hkp : k' = pk := by simpa using hb
        rw [hkp]
        exact hpk
      simp only [if_neg hk, List.lookup_cons, hb]

theorem mem_map_fst_iff_any (d : List (String × String)) (k : String) :
    d.any (fun p => p.1 = k) = true ↔ k ∈ d.map Prod.fst := by
  simp [List.any_eq_true, List.mem_map]

theorem odInsert_lookup (d : List (String × String)) (k v k' : String) :
    (odInsert d k v).lookup k' = if k' = k then some v else d.lookup k' := by
  unfold odInsert
  by_cases hmem : k ∈ d.map Prod.fst
  · rw [if_pos ((mem_map_fst_iff_any d k).mpr hmem)]
    by_cases hk : k' = k
    · subst hk
      rw [if_pos rfl]
      exact lookup_map_replace_self k' v d hmem
    · rw [if_neg hk]
      exact lookup_map_replace_other k v k' hk d
  · rw [if_neg (fun hc => hmem ((mem_map_fst_iff_any d k).mp hc))]
    exact lookup_append_new k v k' d hmem

theorem odInsert_map_fst (d : List (String × String)) (k v : String) :
    (odInsert d k v).map Prod.fst =
      if k ∈ d.map Prod.fst then d.map Prod.fst else d.map Prod.fst ++ [k] := by
  unfold odInsert
  by_cases hmem : k ∈ d.map Prod.fst
  · rw [if_pos ((mem_map_fst_iff_any d k).mpr hmem), if_pos hmem, List.map_map]
    apply List.map_congr_left
    intro p _
    by_cases hp : p.1 = k
    · simp [hp]
    · simp [hp]
  · rw [if_neg (fun hc => hmem ((mem_map_fst_iff_any d k).mp hc)), if_neg hmem]
    simp

theorem freshKeys_mem (k : String) :
    ∀ (ks seen : List String), k ∈ freshKeys seen ks ↔ k ∈ ks ∧ k ∉ seen := by
  intro ks
  induction ks with
  | nil => intro seen; simp [freshKeys]
  | cons a ks ih =>
    intro seen
    by_cases ha : a ∈ seen
    · rw [show freshKeys seen (a :: ks) = freshKeys seen ks by simp [freshKeys, ha]]
      by_cases hka : k = a
      · subst hka
        simp [ha, ih seen]
      · simp [hka, ih seen]
    · rw [show freshKeys seen (a :: ks) = a :: freshKeys (seen ++ [a]) ks by
        simp [freshKeys, ha]]
      by_cases hka : k = a
      · subst hka
        simp [ha]
      · simp only [List.mem_cons, ih (seen ++ [a]), List.mem_append, List.mem_singleton]
        tauto

theorem freshKeys_nodup : ∀ (ks seen : List String), (freshKeys seen ks).Nodup := by
  intro ks
  induction ks with
  | nil => intro seen; simp [freshKeys]
  | cons a ks ih =>
    intro seen
    by_cases ha : a ∈ seen
    · rw [show freshKeys seen (a :: ks) = freshKeys seen ks by simp [freshKeys, ha]]
      exact ih seen
    · rw [show freshKeys seen (a :: ks) = a :: freshKeys (seen ++ [a]) ks by
        simp [freshKeys, ha]]
      refine List.nodup_cons.mpr ⟨?_, ih (seen ++ [a])⟩
      intro hc
      exact ((freshKeys_mem a ks (seen ++ [a])).mp hc).2 (by simp)

theorem build_fold_lookup (cwd mapping_file : String) (rows : List (String × String)) :
    ∀ (d : List (String × String)) (k : String),
      (rows.foldl (fun d r => odInsert d r.1 (abs_path cwd mapping_file r.2)) d).lookup k
        = match rows.reverse.find? (fun r => r.1 = k) with
          | some r => some (abs_path cwd mapping_file r.2)
          | none => d.lookup k := by
  induction rows with
  | nil => intro d k; rfl
  | cons r rs ih =>
    intro d k
    show (rs.foldl _ (odInsert d r.1 (abs_path cwd mapping_file r.2))).lookup k = _
    rw [ih]
    rw [show (r :: rs).reverse = rs.reverse ++ [r] by simp, List.find?_append]
    cases hf : rs.reverse.find? (fun x => x.1 = k) with
    | some x => simp
    | none =>
      simp only [Option.none_or]
      by_cases hp : r.1 = k
      · rw [List.find?_cons_of_pos _ (by simp [hp])]
        rw [odInsert_lookup, if_pos hp.symm]
      · rw [List.find?_cons_of_neg _ (by simp [hp]), List.find?_nil]
        rw [odInsert_lookup, if_neg (fun hc => hp hc.symm)]

theorem build_fold_keys (cwd mapping_file : String) (rows : List (String × String)) :
    ∀ d : List (String × String),
      (rows.foldl (fun d r => odInsert d r.1 (abs_path cwd mapping_file r.2)) d).map Prod.fst
        = d.map Prod.fst ++ freshKeys (d.map Prod.fst) (rows.map Prod.fst) := by
  induction rows with
  | nil => intro d; simp [freshKeys]
  | cons r rs ih =>
    intro d
    show (rs.foldl _ (odInsert d r.1 (abs_path cwd mapping_file r.2))).map Prod.fst = _
    rw [ih, odInsert_map_fst]
    by_cases hmem : r.1 ∈ d.map Prod.fst
    · rw [if_pos hmem]
      rw [show freshKeys (d.map Prod.fst) ((r :: rs).map Prod.fst)
          = freshKeys (d.map Prod.fst) (rs.map Prod.fst) by
        simp [freshKeys, hmem]]
    · rw [if_neg hmem]
      rw [show freshKeys (d.map Prod.fst) ((r :: rs).map Prod.fst)
          = r.1 :: freshKeys (d.map Prod.fst ++ [r.1]) (rs.map Prod.fst) by
        simp [freshKeys, hmem]]
      simp

/-- C10: when the mapping file repeats a sample name, the built mapping
holds that sample exactly once, bound to the resolved path of the last
such row; the key order of the mapping is the first-occurrence order of
the row sample names, so the repeated sample sits at its first
occurrence. -/
theorem mapping_file_duplicate_sample (cwd mapping_file : String)
    (rows : List (String × String)) (k : String)
    (hk : k ∈ rows.map Prod.fst) :
    ((mappingFileBuildSampleBamMapping cwd mapping_file rows).map Prod.fst).count k = 1 ∧
    (mappingFileBuildSampleBamMapping cwd mapping_file rows).lookup k
      = (rows.reverse.find? (fun r => r.1 = k)).map
          (fun r => abs_path cwd mapping_file r.2) ∧
    (mappingFileBuildSampleBamMapping cwd mapping_file rows).map Prod.fst
      = freshKeys [] (rows.map Prod.fst) := by
  have hkeys := build_fold_keys cwd mapping_file rows []
  simp only [List.map_nil, List.nil_append] at hkeys
  refine ⟨?_, ?_, hkeys⟩
  · rw [show mappingFileBuildSampleBamMapping cwd mapping_file rows
        = rows.foldl (fun d r => odInsert d r.1 (abs_path cwd mapping_file r.2)) [] from rfl]
    rw [hkeys]
    exact List.count_eq_one_of_mem (freshKeys_nodup _ _)
      ((freshKeys_mem _ _ _).mpr ⟨hk, by simp⟩)
  · rw [show mappingFileBuildSampleBamMapping cwd mapping_file rows
        = rows.foldl (fun d r => odInsert d r.1 (abs_path cwd mapping_file r.2)) [] from rfl]
    rw [build_fold_lookup]
    cases hf : rows.reverse.find? (fun r => r.1 = k) <;> simp

/-- Witness for C10 on a mapping file repeating sample `s1`. -/
theorem mapping_file_duplicate_sample_apply :
    ((mappingFileBuildSampleBamMapping "/w" "/data/map.tsv"
        [("s1", "/p/a.bam"), ("s2", "/p/b.bam"), ("s1", "/p/c.bam")]).map Prod.fst).count "s1"
      = 1 ∧
    (mappingFileBuildSampleBamMapping "/w" "/data/map.tsv"
        [("s1", "/p/a.bam"), ("s2", "/p/b.bam"), ("s1", "/p/c.bam")]).lookup "s1"
      = (([("s1", "/p/a.bam"), ("s2", "/p/b.bam"), ("s1", "/p/c.bam")]
          : List (String × String)).reverse.find? (fun r => r.1 = "s1")).map
          (fun r => abs_path "/w" "/data/map.tsv" r.2) ∧
    (mappingFileBuildSampleBamMapping "/w" "/data/map.tsv"
        [("s1", "/p/a.bam"), ("s2", "/p/b.bam"), ("s1", "/p/c.bam")]).map Prod.fst
      = freshKeys [] (([("s1", "/p/a.bam"), ("s2", "/p/b.bam"), ("s1", "/p/c.bam")]
          : List (String × String)).map Prod.fst) :=
  mapping_file_duplicate_sample "/w" "/data/map.tsv"
    [("s1", "/p/a.bam"), ("s2", "/p/b.bam"), ("s1", "/p/c.bam")] "s1" (by decide)

/-- C4 counterexample: the mapping-file row `sampleX<TAB>../bams/sampleX.bam`
read from `/data/map.tsv` resolves to `/bams/sampleX.bam` — `..` ascends
out of `/data` — not to `/data/bams/sampleX.bam` as claimed; the result
is the same whatever the working directory. -/
theorem mapping_relative_path_example_refuted :
    abs_path "/work" "/data/map.tsv" "../bams/sampleX.bam" = "/bams/sampleX.bam" ∧
    abs_path "/data" "/data/map.tsv" "../bams/sampleX.bam" = "/bams/sampleX.bam" ∧
    ("/bams/sampleX.bam" : String) ≠ "/data/bams/sampleX.bam" :=
  ⟨by decide, by decide, by decide⟩

/-- C4 amended: a source path that is not already its own absolute form
is resolved against the mapping file's directory — the result is the
normalized join of `dirname(mapping_file)` with the path, in which the
working directory plays no part. -/
theorem mapping_relative_path_resolution (cwd mapping_file path : String)
    (h1 : path ≠ abspath cwd path)
    (h2 : startsWithS (posixJoin (dirname mapping_file) path) "/" = true) :
    abs_path cwd mapping_file path = normpath (posixJoin (dirname mapping_file) path) := by
  unfold abs_path
  rw [if_pos h1]
  unfold abspath
  rw [if_pos h2]

/-- Witness for the amended C4 on the spec's example row. -/
theorem mapping_relative_path_resolution_apply :
    abs_path "/work" "/data/map.tsv" "../bams/sampleX.bam"
      = normpath (posixJoin (dirname "/data/map.tsv") "../bams/sampleX.bam") :=
  mapping_relative_path_resolution "/work" "/data/map.tsv" "../bams/sampleX.bam"
    (by decide) (by decide)

/-- C5 counterexample: on an input whose column-header line declares
zero samples, the matching-name strategy does not fail — it returns
an empty mapping (`Except.ok []`); no `NoSampleNamesFound` error path
exists in the code. -/
theorem matching_name_zero_samples_no_failure :
    getSampleNames
        ["##meta", "#CHROM\tPOS\tID\tREF\tALT\tQUAL\tFILTER\tINFO\tFORMAT"] = [] ∧
    matchingNameBuildSampleBamMapping
        (getSampleNames
          ["##meta", "#CHROM\tPOS\tID\tREF\tALT\tQUAL\tFILTER\tINFO\tFORMAT"])
        "/data/calls.vcf"
      = Except.ok [] ∧
    (matchingNameBuildSampleBamMapping
        (getSampleNames
          ["##meta", "#CHROM\tPOS\tID\tREF\tALT\tQUAL\tFILTER\tINFO\tFORMAT"])
        "/data/calls.vcf").isOk = true :=
  ⟨by decide, rfl, rfl⟩

/-- C5 amended: the matching-name resolver never raises — its body has
no failure path — and with zero sample names it returns the empty
mapping, so the run proceeds with no sample columns. -/
theorem matching_name_never_fails (sample_names : List String) (input_vcf_path : String) :
    (matchingNameBuildSampleBamMapping sample_names input_vcf_path).isOk = true ∧
    (sample_names = [] →
      matchingNameBuildSampleBamMapping sample_names input_vcf_path = Except.ok []) := by
  constructor
  · rfl
  · intro h
    subst h
    rfl

/-- Witness for the amended C5 at the empty sample-name list. -/
theorem matching_name_never_fails_apply :
    matchingNameBuildSampleBamMapping [] "/data/calls.vcf" = Except.ok [] :=
  (matching_name_never_fails [] "/data/calls.vcf").2 rfl

end Zither
